import Mathlib

/-!
Verification of the MutualGuide detector sources against their specification.

The development shallowly embeds three source files:
* `src/models/detector.py` — the `Detector` constructor (`__init__`), the
  `multibox` head builder and `Detector.forward`;
* `src/main.py` — the evaluation loop's per-class score thresholding and the
  global top-K cap;
* `src/models/repvgg_backbone.py` — `RepVGGBlock` (training/deploy forward,
  `_fuse_bn`, `_pad_1x1_to_3x3`, `repvgg_convert`).

Real-valued tensor entries are modelled as rationals; the only irrational
quantity, `sqrt(running_var + eps)` inside BatchNorm, is carried as an
abstract per-channel parameter `std`.
-/

namespace MutualGuide

/-! ## Detector configuration (`src/models/detector.py`)

`nn.Conv2d(fea_channel, out_channel, kernel_size=3, padding=1)` is recorded
structurally as a `ConvSpec`; Python ints are modelled as `ℤ` (so
`num_classes - 1` may be negative, exactly as in Python). -/

/-- Structural record of one `nn.Conv2d` layer built by `multibox`. -/
structure ConvSpec where
  inC : ℤ
  outC : ℤ
  kernel_size : ℕ
  padding : ℕ
deriving DecidableEq, Repr

/-- Constant text of the `RuntimeError` PyTorch raises when a tensor is
allocated with a negative dimension (the offending sizes are interpolated in
the real message). -/
def negDimErrMsg : String := "Trying to create tensor with negative dimension"

/-- `nn.Conv2d(fea_channel, out_channel, kernel_size, padding)` as called by
`multibox`: PyTorch allocates the weight tensor of shape
`(out_channels, in_channels, k, k)` during layer construction and raises
`Trying to create tensor with negative dimension` when a channel count is
negative (zero-sized dimensions are permitted); a successfully built layer
is recorded structurally. -/
def mkConv2d (inC outC : ℤ) (k pad : ℕ) : Except String ConvSpec :=
  if outC < 0 ∨ inC < 0 then Except.error negDimErrMsg
  else Except.ok ⟨inC, outC, k, pad⟩

/-- The loop of `multibox` (lines 13-15): per pyramid level, build the
location conv then the confidence conv; the first failing `nn.Conv2d`
construction aborts the loop. -/
def multiboxLoop (fea loc_channel cls_channel : ℤ) :
    ℕ → Except String (List ConvSpec × List ConvSpec)
  | 0 => Except.ok ([], [])
  | n + 1 =>
    match mkConv2d fea loc_channel 3 1 with
    | Except.error e => Except.error e
    | Except.ok lc =>
      match mkConv2d fea cls_channel 3 1 with
      | Except.error e => Except.error e
      | Except.ok cc =>
        match multiboxLoop fea loc_channel cls_channel n with
        | Except.error e => Except.error e
        | Except.ok p => Except.ok (lc :: p.1, cc :: p.2)

/-- `multibox` from `src/models/detector.py` lines 9-16: one location conv and
one confidence conv per pyramid level, with `loc_channel = num_anchors * 4`
and `cls_channel = num_anchors * num_classes`; fallible because the
`nn.Conv2d` constructions are. -/
def multibox (fpn_level : ℕ) (num_anchors num_classes fea_channel : ℤ) :
    Except String (List ConvSpec × List ConvSpec) :=
  multiboxLoop fea_channel (num_anchors * 4) (num_anchors * num_classes)
    fpn_level

/-- The configuration state produced by a successful `Detector.__init__`.
`num_classes` stores `self.num_classes`, i.e. the constructor argument
minus one. -/
structure DetectorCfg where
  fpn_level : ℕ
  num_classes : ℤ
  num_anchors : ℤ
  fea_channel : ℤ
  loc : List ConvSpec
  conf : List ConvSpec
deriving DecidableEq, Repr

/-- Backbone selection in `Detector.__init__`: known backbone names map to
their `(channels, fea_channel)` constants; unknown names raise. -/
def backboneChannels : String → Option ((ℤ × ℤ) × ℤ)
  | "vgg16" => some ((512, 512), 256)
  | "repvgg" => some ((384, 1408), 256)
  | "resnet18" => some ((256, 512), 256)
  | "shufflenet" => some ((232, 464), 128)
  | _ => none

/-- Neck selection in `Detector.__init__`: only these three names are known. -/
def neckKnown (neck : String) : Bool :=
  neck == "ssd" || neck == "fpn" || neck == "pafpn"

/-- Error message of the size check (the Python message interpolates the
size value; the constant text is kept). -/
def sizeErrMsg : String := "Error: Sorry size is not supported!"

/-- Error message for an unknown backbone name. -/
def backboneErrMsg : String := "Error: Sorry backbone is not supported!"

/-- Error message for an unknown neck name. -/
def neckErrMsg : String := "Error: Sorry neck is not supported!"

/-- `Detector.__init__` from `src/models/detector.py` lines 21-71, as a
fallible constructor: first the size check (`size % 64 == 0`), then
`fpn_level = 4 if size < 512 else 5`, `self.num_classes = num_classes - 1`,
`self.num_anchors = 6`, then backbone and neck dispatch (the networks are
built there), then `multibox`, whose `nn.Conv2d` constructions can raise.
No explicit check of `num_classes` is performed anywhere. -/
def detectorInit (size num_classes : ℤ) (backbone neck : String) :
    Except String DetectorCfg :=
  if ¬ size % 64 = 0 then
    Except.error sizeErrMsg
  else
    let fpn_level : ℕ := if size < 512 then 4 else 5
    let ncls : ℤ := num_classes - 1
    let na : ℤ := 6
    match backboneChannels backbone with
    | none => Except.error backboneErrMsg
    | some (_, fea) =>
      if neckKnown neck then
        match multibox fpn_level na ncls fea with
        | Except.error e => Except.error e
        | Except.ok lc => Except.ok ⟨fpn_level, ncls, na, fea, lc.1, lc.2⟩
      else
        Except.error neckErrMsg

lemma mkConv2d_ok (inC outC : ℤ) (k pad : ℕ) (c : ConvSpec)
    (h : mkConv2d inC outC k pad = Except.ok c) :
    c = ⟨inC, outC, k, pad⟩ := by
  unfold mkConv2d at h
  split at h
  · cases h
  · cases h
    rfl

lemma mkConv2d_error (inC outC : ℤ) (k pad : ℕ) (e : String)
    (h : mkConv2d inC outC k pad = Except.error e) :
    e = negDimErrMsg := by
  unfold mkConv2d at h
  split at h
  · cases h
    rfl
  · cases h

lemma multiboxLoop_ok (fea lch cch : ℤ) (n : ℕ)
    (p : List ConvSpec × List ConvSpec)
    (h : multiboxLoop fea lch cch n = Except.ok p) :
    p = (List.replicate n ⟨fea, lch, 3, 1⟩,
         List.replicate n ⟨fea, cch, 3, 1⟩) := by
  induction n generalizing p with
  | zero =>
      cases h
      rfl
  | succ n ih =>
      unfold multiboxLoop at h
      cases h1 : mkConv2d fea lch 3 1 with
      | error e => rw [h1] at h; cases h
      | ok lc =>
        rw [h1] at h
        cases h2 : mkConv2d fea cch 3 1 with
        | error e => rw [h2] at h; cases h
        | ok cc =>
          rw [h2] at h
          cases h3 : multiboxLoop fea lch cch n with
          | error e => rw [h3] at h; cases h
          | ok q =>
            rw [h3] at h
            cases h
            have hq := ih q h3
            have hlc := mkConv2d_ok fea lch 3 1 lc h1
            have hcc := mkConv2d_ok fea cch 3 1 cc h2
            subst hlc
            subst hcc
            rw [hq]
            rfl

lemma multiboxLoop_error (fea lch cch : ℤ) (n : ℕ) (e : String)
    (h : multiboxLoop fea lch cch n = Except.error e) :
    e = negDimErrMsg := by
  induction n with
  | zero => cases h
  | succ n ih =>
      unfold multiboxLoop at h
      cases h1 : mkConv2d fea lch 3 1 with
      | error e1 =>
          rw [h1] at h
          cases h
          exact mkConv2d_error fea lch 3 1 e h1
      | ok lc =>
        rw [h1] at h
        cases h2 : mkConv2d fea cch 3 1 with
        | error e2 =>
            rw [h2] at h
            cases h
            exact mkConv2d_error fea cch 3 1 e h2
        | ok cc =>
          rw [h2] at h
          cases h3 : multiboxLoop fea lch cch n with
          | error e3 =>
              rw [h3] at h
              cases h
              exact ih h3
          | ok q => rw [h3] at h; cases h

lemma multibox_ok (fpn_level : ℕ) (na nc fea : ℤ)
    (p : List ConvSpec × List ConvSpec)
    (h : multibox fpn_level na nc fea = Except.ok p) :
    p = (List.replicate fpn_level ⟨fea, na * 4, 3, 1⟩,
         List.replicate fpn_level ⟨fea, na * nc, 3, 1⟩) :=
  multiboxLoop_ok fea (na * 4) (na * nc) fpn_level p h

lemma multibox_error (fpn_level : ℕ) (na nc fea : ℤ) (e : String)
    (h : multibox fpn_level na nc fea = Except.error e) :
    e = negDimErrMsg :=
  multiboxLoop_error fea (na * 4) (na * nc) fpn_level e h

/-! ## Theorems for claims C6, C7, C8 -/

/-- Claim C6: for every input size that is not a multiple of 64, constructing
the `Detector` fails immediately with the size `ValueError` (whatever the
other arguments are, so before any network is built), and for every size
that is a multiple of 64 this check passes (the size error is never the
outcome). -/
theorem C6_size_check (size num_classes : ℤ) (backbone neck : String) :
    (¬ size % 64 = 0 →
      detectorInit size num_classes backbone neck = Except.error sizeErrMsg) ∧
    (size % 64 = 0 →
      detectorInit size num_classes backbone neck ≠ Except.error sizeErrMsg) := by
  constructor
  · intro h
    simp [detectorInit, h]
  · intro h
    simp only [detectorInit, h, not_true_eq_false, if_false]
    cases hb : backboneChannels backbone with
    | none =>
        simp [backboneErrMsg, sizeErrMsg]
    | some p =>
        cases p with
        | mk c fea =>
          by_cases hn : neckKnown neck
          · simp only [hn, if_true]
            cases hm : multibox (if size < 512 then 4 else 5) 6
                (num_classes - 1) fea with
            | error e =>
                have he := multibox_error _ _ _ _ _ hm
                subst he
                simp [negDimErrMsg, sizeErrMsg]
            | ok lc => simp
          · simp [hn, neckErrMsg, sizeErrMsg]

/-- Witness for C6 at concrete inputs: size 65 is rejected with the size
error and size 320 is not. -/
theorem C6_size_check_witness :
    (¬ (65 : ℤ) % 64 = 0 ∧
      detectorInit 65 21 "repvgg" "pafpn" = Except.error sizeErrMsg) ∧
    ((320 : ℤ) % 64 = 0 ∧
      detectorInit 320 21 "repvgg" "pafpn" ≠ Except.error sizeErrMsg) :=
  ⟨⟨by decide, (C6_size_check 65 21 "repvgg" "pafpn").1 (by decide)⟩,
   ⟨by decide, (C6_size_check 320 21 "repvgg" "pafpn").2 (by decide)⟩⟩

/-- Counterexample for claim C7: the zero class count is NOT a configuration
error raised immediately. With `num_classes = 0` the size check and the
backbone/neck name dispatch all run first — an unknown backbone or neck name
errors before the class count matters at all (first two conjuncts; contrast
the size check of C6, which fires for every backbone and neck) — and with
valid names the backbone and neck are fully built and construction aborts
only at head construction, with PyTorch's negative-tensor-dimension
allocation error from `nn.Conv2d(256, -6, ...)` inside `multibox`, not with
a configuration check. -/
theorem C7_zero_classes_counterexample :
    detectorInit 320 0 "unknown" "pafpn" = Except.error backboneErrMsg ∧
    detectorInit 320 0 "repvgg" "unknown" = Except.error neckErrMsg ∧
    detectorInit 320 0 "repvgg" "pafpn" = Except.error negDimErrMsg :=
  ⟨by rfl, by rfl, by rfl⟩

/-- Claim C7 as amended: `Detector.__init__` contains no explicit class-count
validation and the zero-class failure is not an immediate configuration
check. With `num_classes = 0` the size check and backbone/neck dispatch run
first (an unknown backbone name masks the problem entirely, whatever the
neck), and construction then aborts when `multibox` builds the first
confidence `nn.Conv2d` with channel count `6 * (0 - 1) = -6` and PyTorch
rejects the negative tensor dimension — an allocation failure at head
construction, the last step of `__init__`, with the location conv
(channel count `6 * 4 = 24`) already built. -/
theorem C7_zero_classes_amended :
    detectorInit 320 0 "repvgg" "pafpn" = Except.error negDimErrMsg ∧
    multibox 4 6 ((0 : ℤ) - 1) 256 = Except.error negDimErrMsg ∧
    (6 : ℤ) * (0 - 1) = -6 ∧
    mkConv2d 256 (-6) 3 1 = Except.error negDimErrMsg ∧
    mkConv2d 256 (6 * 4) 3 1 = Except.ok ⟨256, 24, 3, 1⟩ ∧
    (∀ neck : String,
      detectorInit 320 0 "unknown" neck = Except.error backboneErrMsg) :=
  ⟨by rfl, by rfl, by rfl, by rfl, by rfl, fun neck => by rfl⟩

/-- Claim C8: whenever `Detector.__init__` succeeds, the number of pyramid
levels is 4 for `size < 512` and 5 for `size ≥ 512` (in particular size 512
itself gets 5 levels). -/
theorem C8_fpn_levels (size num_classes : ℤ) (backbone neck : String)
    (cfg : DetectorCfg)
    (h : detectorInit size num_classes backbone neck = Except.ok cfg) :
    cfg.fpn_level = if size < 512 then 4 else 5 := by
  by_cases hs : size % 64 = 0
  · simp only [detectorInit, hs, not_true_eq_false, if_false] at h
    cases hb : backboneChannels backbone with
    | none => rw [hb] at h; cases h
    | some p =>
        cases p with
        | mk c fea =>
          rw [hb] at h
          by_cases hn : neckKnown neck
          · simp only [hn, if_true] at h
            split at h
            · cases h
            · cases h
              rfl
          · simp [hn] at h
  · simp [detectorInit, hs] at h

/-- Witness for C8: at size 512 the constructor yields 5 levels
(and `if 512 < 512 then 4 else 5 = 5`). -/
theorem C8_fpn_levels_witness :
    detectorInit 512 21 "repvgg" "pafpn" =
      Except.ok ⟨5, 20, 6, 256,
        List.replicate 5 ⟨256, 24, 3, 1⟩,
        List.replicate 5 ⟨256, 120, 3, 1⟩⟩ ∧

    (⟨5, 20, 6, 256,
        List.replicate 5 ⟨256, 24, 3, 1⟩,
        List.replicate 5 ⟨256, 120, 3, 1⟩⟩ : DetectorCfg).fpn_level =
      if (512 : ℤ) < 512 then 4 else 5 :=
  ⟨by rfl,
   C8_fpn_levels 512 21 "repvgg" "pafpn" _ (by rfl)⟩

/-! ## `Detector.forward` (`src/models/detector.py` lines 88-101)

Per batch element, each head output is a `(C, H, W)` tensor. The code permutes
it to `(H, W, C)`, flattens to one dimension (row `h` outer, then `w`, then
channel `c` innermost), concatenates over pyramid levels, and reshapes into
rows of 4 (location) or `num_classes - 1` (confidence) entries. All these
operations act independently on the batch dimension, so the embedding works
with a single batch element. -/

/-- A one-dimensional tensor: a length and an entry function (entries beyond
`len` are irrelevant). -/
structure Tensor1 where
  len : ℕ
  val : ℕ → ℚ

/-- The empty tensor (base of `torch.cat`). -/
def emptyT : Tensor1 := ⟨0, fun _ => 0⟩

/-- `torch.cat` of two flattened tensors along the single dimension. -/
def appendT (a b : Tensor1) : Tensor1 :=
  ⟨a.len + b.len, fun i => if i < a.len then a.val i else b.val (i - a.len)⟩

/-- `t.permute(0, 2, 3, 1).contiguous().view(N, -1)` applied to a `(C, H, W)`
tensor `t` (one batch element): the flat entry at `(h*W + w)*C + c` is
`t c h w`. -/
def permuteFlatten (C H W : ℕ) (t : ℕ → ℕ → ℕ → ℚ) : Tensor1 :=
  ⟨H * W * C, fun i => t (i % C) (i / C / W) (i / C % W)⟩

/-- A two-dimensional tensor view. -/
structure Tensor2 where
  rows : ℕ
  cols : ℕ
  val : ℕ → ℕ → ℚ

/-- `x.view(N, -1, g)`: group a flat tensor into rows of `g` entries. -/
def viewGrouped (g : ℕ) (t : Tensor1) : Tensor2 :=
  ⟨t.len / g, g, fun i k => t.val (g * i + k)⟩

/-- Head outputs for all levels: level, channel, row, column. -/
abbrev HeadOut := ℕ → ℕ → ℕ → ℕ → ℚ

/-- The loop of `Detector.forward`: for each pyramid level of spatial size
`(H, W)`, permute-flatten the head output with `C` channels, then
concatenate. -/
def detectorFlat (C : ℕ) (heads : HeadOut) : List (ℕ × ℕ) → Tensor1
  | [] => emptyT
  | d :: rest =>
      appendT (permuteFlatten C d.1 d.2 (heads 0))
        (detectorFlat C (fun l => heads (l + 1)) rest)

/-- `Detector.forward` per batch element: the flattened location tensor viewed
as rows of 4, and the flattened confidence tensor viewed as rows of `ncls`
(with `ncls = self.num_classes = num_classes - 1`), where `A` anchors sit at
each spatial cell. -/
def detectorForward (A ncls : ℕ) (dims : List (ℕ × ℕ))
    (locHead confHead : HeadOut) : Tensor2 × Tensor2 :=
  (viewGrouped 4 (detectorFlat (A * 4) locHead dims),
   viewGrouped ncls (detectorFlat (A * ncls) confHead dims))

/-- Number of cells-times-`C` entries contributed by levels before level `l`:
`Σ_{l' < l} H_l' * W_l' * C`. -/
def cellOffset (C : ℕ) : List (ℕ × ℕ) → ℕ → ℕ
  | _, 0 => 0
  | [], _ + 1 => 0
  | d :: rest, l + 1 => d.1 * d.2 * C + cellOffset C rest l

/-- Total anchor count over all levels: `Σ_l H_l * W_l * A`. -/
def anchorCount (A : ℕ) (dims : List (ℕ × ℕ)) : ℕ :=
  cellOffset A dims dims.length

lemma cellOffset_mul (A g : ℕ) (dims : List (ℕ × ℕ)) (l : ℕ) :
    cellOffset (A * g) dims l = g * cellOffset A dims l := by
  induction dims generalizing l with
  | nil => cases l <;> simp [cellOffset]
  | cons d rest ih =>
      cases l with
      | zero => simp [cellOffset]
      | succ l =>
          simp only [cellOffset, ih]
          ring

lemma flat_index_lt (C H W h w c : ℕ) (hh : h < H) (hw : w < W) (hc : c < C) :
    (h * W + w) * C + c < H * W * C := by
  have h1 : h * W + w + 1 ≤ H * W := by
    calc h * W + w + 1 ≤ h * W + W := by omega
      _ = (h + 1) * W := by ring
      _ ≤ H * W := Nat.mul_le_mul_right W (Nat.succ_le_of_lt hh)
  calc (h * W + w) * C + c < (h * W + w) * C + C := by omega
    _ = (h * W + w + 1) * C := by ring
    _ ≤ H * W * C := Nat.mul_le_mul_right C h1

lemma permuteFlatten_val (C H W : ℕ) (t : ℕ → ℕ → ℕ → ℚ) (h w c : ℕ)
    (hw : w < W) (hc : c < C) :
    (permuteFlatten C H W t).val ((h * W + w) * C + c) = t c h w := by
  have hC : 0 < C := Nat.lt_of_le_of_lt (Nat.zero_le c) hc
  have hW : 0 < W := Nat.lt_of_le_of_lt (Nat.zero_le w) hw
  have e1 : (h * W + w) * C + c = c + (h * W + w) * C := by ring
  have emod : ((h * W + w) * C + c) % C = c := by
    rw [e1, Nat.add_mul_mod_self_right, Nat.mod_eq_of_lt hc]
  have ediv : ((h * W + w) * C + c) / C = h * W + w := by
    rw [e1, Nat.add_mul_div_right _ _ hC, Nat.div_eq_of_lt hc, Nat.zero_add]
  have e2 : h * W + w = w + h * W := by ring
  have ediv2 : (h * W + w) / W = h := by
    rw [e2, Nat.add_mul_div_right _ _ hW, Nat.div_eq_of_lt hw, Nat.zero_add]
  have emod2 : (h * W + w) % W = w := by
    rw [e2, Nat.add_mul_mod_self_right, Nat.mod_eq_of_lt hw]
  dsimp [permuteFlatten]
  rw [emod, ediv, ediv2, emod2]

lemma detectorFlat_len (C : ℕ) (heads : HeadOut) (dims : List (ℕ × ℕ)) :
    (detectorFlat C heads dims).len = cellOffset C dims dims.length := by
  induction dims generalizing heads with
  | nil => rfl
  | cons d rest ih =>
      simp only [detectorFlat, appendT, permuteFlatten, List.length_cons,
        cellOffset, ih]

lemma detectorFlat_val (C : ℕ) (heads : HeadOut) (dims : List (ℕ × ℕ))
    (l h w c : ℕ) (hl : l < dims.length)
    (hh : h < (dims.getD l (0, 0)).1) (hw : w < (dims.getD l (0, 0)).2)
    (hc : c < C) :
    (detectorFlat C heads dims).val
        (cellOffset C dims l + ((h * (dims.getD l (0, 0)).2 + w) * C + c))
      = heads l c h w := by
  induction dims generalizing l heads with
  | nil => exact absurd hl (by simp)
  | cons d rest ih =>
      cases l with
      | zero =>
          have hh1 : h < d.1 := by simpa using hh
          have hw1 : w < d.2 := by simpa using hw
          have hidx : (h * d.2 + w) * C + c < d.1 * d.2 * C :=
            flat_index_lt C d.1 d.2 h w c hh1 hw1 hc
          show (appendT (permuteFlatten C d.1 d.2 (heads 0)) _).val
              (cellOffset C (d :: rest) 0 + ((h * (((d :: rest).getD 0 (0, 0)).2) + w) * C + c))
            = heads 0 c h w
          simp only [cellOffset, List.getD_cons_zero, Nat.zero_add, appendT]
          rw [if_pos (by simpa [permuteFlatten] using hidx)]
          exact permuteFlatten_val C d.1 d.2 (heads 0) h w c hw1 hc
      | succ l =>
          have hl1 : l < rest.length := by simpa using hl
          have hh1 : h < (rest.getD l (0, 0)).1 := by simpa using hh
          have hw1 : w < (rest.getD l (0, 0)).2 := by simpa using hw
          show (appendT (permuteFlatten C d.1 d.2 (heads 0)) _).val
              (cellOffset C (d :: rest) (l + 1)
                + ((h * (((d :: rest).getD (l + 1) (0, 0)).2) + w) * C + c))
            = heads (l + 1) c h w
          simp only [cellOffset, List.getD_cons_succ, appendT]
          rw [Nat.add_assoc, if_neg (by simp [permuteFlatten]),
            show d.1 * d.2 * C
                + (cellOffset C rest l + ((h * ((rest.getD l (0, 0)).2) + w) * C + c))
                - (permuteFlatten C d.1 d.2 (heads 0)).len
              = cellOffset C rest l + ((h * ((rest.getD l (0, 0)).2) + w) * C + c)
              from by simp [permuteFlatten]]
          exact ih (fun l => heads (l + 1)) l hl1 hh1 hw1

/-- `Detector.__init__` success characterization: the resulting configuration
is fully determined by `size`, `num_classes` and the backbone's
`fea_channel`. -/
lemma detectorInit_ok (size num_classes : ℤ) (backbone neck : String)
    (cfg : DetectorCfg)
    (h : detectorInit size num_classes backbone neck = Except.ok cfg) :
    ∃ fea : ℤ,
      cfg = ⟨if size < 512 then 4 else 5, num_classes - 1, 6, fea,
        List.replicate (if size < 512 then 4 else 5)
          ⟨fea, 6 * 4, 3, 1⟩,
        List.replicate (if size < 512 then 4 else 5)
          ⟨fea, 6 * (num_classes - 1), 3, 1⟩⟩ := by
  by_cases hs : size % 64 = 0
  · simp only [detectorInit, hs, not_true_eq_false, if_false] at h
    cases hb : backboneChannels backbone with
    | none => rw [hb] at h; cases h
    | some p =>
        cases p with
        | mk ch fea =>
          rw [hb] at h
          by_cases hn : neckKnown neck
          · simp only [hn, if_true] at h
            split at h
            · cases h
            · rename_i lc heq
              cases h
              have hlc := multibox_ok _ _ _ _ _ heq
              refine ⟨fea, ?_⟩
              rw [hlc]
          · simp [hn] at h
  · simp [detectorInit, hs] at h

/-- Claim C4: for every successful configuration (with a real class count,
`num_classes ≥ 2`), the `Detector` builds exactly one location conv and one
confidence conv per pyramid level, with output channel counts
`num_anchors * 4` and `num_anchors * (num_classes - 1)` where
`num_anchors = 6`; and `Detector.forward` returns a location tensor of shape
`(A, 4)` and a confidence tensor of shape `(A, num_classes - 1)` per batch
element, `A` being the total anchor count. -/
theorem C4_head_layout (size num_classes : ℤ) (backbone neck : String)
    (cfg : DetectorCfg)
    (h : detectorInit size num_classes backbone neck = Except.ok cfg)
    (hcls : 1 < num_classes) :
    cfg.num_anchors = 6 ∧
    cfg.loc.length = cfg.fpn_level ∧
    cfg.conf.length = cfg.fpn_level ∧
    (∀ s ∈ cfg.loc, s.outC = 6 * 4) ∧
    (∀ s ∈ cfg.conf, s.outC = 6 * (num_classes - 1)) ∧
    (∀ (dims : List (ℕ × ℕ)) (locHead confHead : HeadOut),
      (detectorForward 6 (num_classes - 1).toNat dims locHead confHead).1.rows
          = anchorCount 6 dims ∧
      (detectorForward 6 (num_classes - 1).toNat dims locHead confHead).1.cols
          = 4 ∧
      (detectorForward 6 (num_classes - 1).toNat dims locHead confHead).2.rows
          = anchorCount 6 dims ∧
      (detectorForward 6 (num_classes - 1).toNat dims locHead confHead).2.cols
          = (num_classes - 1).toNat) := by
  obtain ⟨fea, rfl⟩ := detectorInit_ok size num_classes backbone neck cfg h
  have hpos : 0 < (num_classes - 1).toNat := by omega
  refine ⟨rfl, by simp, by simp, ?_, ?_, ?_⟩
  · intro s hs
    rw [List.eq_of_mem_replicate hs]
  · intro s hs
    rw [List.eq_of_mem_replicate hs]
  · intro dims locHead confHead
    refine ⟨?_, rfl, ?_, rfl⟩
    · show (detectorFlat (6 * 4) locHead dims).len / 4 = anchorCount 6 dims
      rw [detectorFlat_len, cellOffset_mul, Nat.mul_div_cancel_left _ (by omega),
        anchorCount]
    · show (detectorFlat (6 * (num_classes - 1).toNat) confHead dims).len
          / (num_classes - 1).toNat = anchorCount 6 dims
      rw [detectorFlat_len, cellOffset_mul,
        Nat.mul_div_cancel_left _ hpos, anchorCount]

/-- Witness for C4: a successful concrete construction (VOC: 21 classes,
size 320, repvgg backbone, pafpn neck) with the stated layout, evaluated on a
two-level pyramid of sizes 40×40 and 20×20 (12000 anchors). -/
theorem C4_head_layout_witness :
    (⟨4, 20, 6, 256,
        List.replicate 4 ⟨256, 24, 3, 1⟩,
        List.replicate 4 ⟨256, 120, 3, 1⟩⟩ : DetectorCfg).num_anchors = 6 ∧
    (detectorForward 6 ((21 : ℤ) - 1).toNat [(40, 40), (20, 20)]
        (fun _ _ _ _ => 0) (fun _ _ _ _ => 0)).1.rows
      = anchorCount 6 [(40, 40), (20, 20)] ∧
    (detectorForward 6 ((21 : ℤ) - 1).toNat [(40, 40), (20, 20)]
        (fun _ _ _ _ => 0) (fun _ _ _ _ => 0)).2.cols
      = ((21 : ℤ) - 1).toNat ∧
    anchorCount 6 [(40, 40), (20, 20)] = 12000 :=
  have hm := C4_head_layout 320 21 "repvgg" "pafpn"
    ⟨4, 20, 6, 256,
      List.replicate 4 ⟨256, 24, 3, 1⟩,
      List.replicate 4 ⟨256, 120, 3, 1⟩⟩ (by rfl) (by decide)
  ⟨hm.1,
   (hm.2.2.2.2.2 [(40, 40), (20, 20)] (fun _ _ _ _ => 0) (fun _ _ _ _ => 0)).1,
   (hm.2.2.2.2.2 [(40, 40), (20, 20)] (fun _ _ _ _ => 0)
      (fun _ _ _ _ => 0)).2.2.2,
   by decide⟩

/-- Per-anchor linear index bound: `a < A` and `k < g` give `a * g + k < A * g`. -/
lemma anchor_channel_lt (A g a k : ℕ) (ha : a < A) (hk : k < g) :
    a * g + k < A * g := by
  calc a * g + k < a * g + g := by omega
    _ = (a + 1) * g := by ring
    _ ≤ A * g := Nat.mul_le_mul_right g (Nat.succ_le_of_lt ha)

/-- Claim C5: `Detector.forward` flattens the head outputs so that the anchor
dimension is ordered by pyramid level first, then spatial position row-major
(row outer), then anchor-shape index innermost: the 4-tuple (resp.
`ncls`-tuple) at anchor index
`cellOffset A dims l + (h * W_l + w) * A + a` is exactly the head output of
level `l` at cell `(h, w)` for shape `a` — channels `a*4 + k` of the location
head and `a*ncls + c` of the confidence head. The index map depends only on
`(dims, A)`, so for a fixed input size index `i` always refers to the same
`(level, cell, shape)`. -/
theorem C5_prediction_ordering (A ncls : ℕ) (dims : List (ℕ × ℕ))
    (locHead confHead : HeadOut) (l h w a k c : ℕ) (hl : l < dims.length)
    (hh : h < (dims.getD l (0, 0)).1) (hw : w < (dims.getD l (0, 0)).2)
    (ha : a < A) (hk : k < 4) (hc : c < ncls) :
    (detectorForward A ncls dims locHead confHead).1.val
        (cellOffset A dims l + (h * (dims.getD l (0, 0)).2 + w) * A + a) k
      = locHead l (a * 4 + k) h w ∧
    (detectorForward A ncls dims locHead confHead).2.val
        (cellOffset A dims l + (h * (dims.getD l (0, 0)).2 + w) * A + a) c
      = confHead l (a * ncls + c) h w := by
  constructor
  · show (detectorFlat (A * 4) locHead dims).val
        (4 * (cellOffset A dims l + (h * (dims.getD l (0, 0)).2 + w) * A + a) + k)
      = locHead l (a * 4 + k) h w
    rw [show 4 * (cellOffset A dims l + (h * (dims.getD l (0, 0)).2 + w) * A + a) + k
        = cellOffset (A * 4) dims l
          + ((h * (dims.getD l (0, 0)).2 + w) * (A * 4) + (a * 4 + k))
      from by rw [cellOffset_mul]; ring]
    exact detectorFlat_val (A * 4) locHead dims l h w (a * 4 + k) hl hh hw
      (anchor_channel_lt A 4 a k ha hk)
  · show (detectorFlat (A * ncls) confHead dims).val
        (ncls * (cellOffset A dims l + (h * (dims.getD l (0, 0)).2 + w) * A + a) + c)
      = confHead l (a * ncls + c) h w
    rw [show ncls * (cellOffset A dims l + (h * (dims.getD l (0, 0)).2 + w) * A + a) + c
        = cellOffset (A * ncls) dims l
          + ((h * (dims.getD l (0, 0)).2 + w) * (A * ncls) + (a * ncls + c))
      from by rw [cellOffset_mul]; ring]
    exact detectorFlat_val (A * ncls) confHead dims l h w (a * ncls + c) hl hh hw
      (anchor_channel_lt A ncls a c ha hc)

/-- Distinguishing head values for the C5 witness: level, channel, row and
column are recoverable from the value. -/
def exHead : HeadOut := fun l c h w => (l * 1000 + c * 100 + h * 10 + w : ℚ)

/-- Witness for C5: on a two-level pyramid (2×3 then 1×2 cells, 6 anchors,
20 confidence channels per anchor), the entry for level 1, cell (0, 1),
shape 2 sits at anchor index 6*6 + (0*2+1)*6 + 2 = 44, and the location
component 3 there is the level-1 head value of channel 2*4+3 = 11 at cell
(0, 1). -/
theorem C5_prediction_ordering_witness :
    (detectorForward 6 20 [(2, 3), (1, 2)] exHead exHead).1.val
        (cellOffset 6 [(2, 3), (1, 2)] 1
          + (0 * ([(2, 3), (1, 2)].getD 1 (0, 0)).2 + 1) * 6 + 2) 3
      = exHead 1 (2 * 4 + 3) 0 1 ∧
    (detectorForward 6 20 [(2, 3), (1, 2)] exHead exHead).2.val
        (cellOffset 6 [(2, 3), (1, 2)] 1
          + (0 * ([(2, 3), (1, 2)].getD 1 (0, 0)).2 + 1) * 6 + 2) 7
      = exHead 1 (2 * 20 + 7) 0 1 ∧
    cellOffset 6 [(2, 3), (1, 2)] 1
        + (0 * ([(2, 3), (1, 2)].getD 1 (0, 0)).2 + 1) * 6 + 2 = 44 ∧
    exHead 1 (2 * 4 + 3) 0 1 = 2101 :=
  ⟨(C5_prediction_ordering 6 20 [(2, 3), (1, 2)] exHead exHead 1 0 1 2 3 7
      (by decide) (by decide) (by decide) (by decide) (by decide)
      (by decide)).1,
   (C5_prediction_ordering 6 20 [(2, 3), (1, 2)] exHead exHead 1 0 1 2 3 7
      (by decide) (by decide) (by decide) (by decide) (by decide)
      (by decide)).2,
   by decide,
   by norm_num [exHead]⟩

/-! ## Evaluation loop of `src/main.py` (lines 181-226)

Per image: `boxes` is the list of decoded boxes, `scores` the per-box lists of
non-background class scores (`scores[:, j-1]` for class `j`). For each class
`j` in `1..num_classes-1`:
`inds = np.where(scores[:, j-1] > thresh)[0]`; if empty, the class result is
the empty `(0, 5)` array; otherwise NMS runs on the selected rows. The NMS
routine itself lives in `utils/box` (not part of the sources), so it is kept
as an abstract function `nmsKeep` standing for `c_dets[nms(c_dets), :]`.
Afterwards the global top-K cap keeps, across all classes, exactly the rows
whose score is `≥` the `max_per_image`-th highest score. -/

/-- A decoded box `(x1, y1, x2, y2)`. -/
abbrev Box := ℚ × ℚ × ℚ × ℚ

/-- The evaluation score threshold, `thresh = 0.005` in `src/main.py`. -/
def evalThresh : ℚ := 5 / 1000

/-- Score of box `i` for non-background class `j` (`scores[i, j-1]`). -/
def classScore (scores : List (List ℚ)) (j i : ℕ) : ℚ :=
  (scores.getD i []).getD (j - 1) 0

/-- `inds = np.where(scores[:, j-1] > thresh)[0]`: the row indices whose
class-`j` score strictly exceeds the threshold, in increasing order. -/
def evalInds (thresh : ℚ) (scores : List (List ℚ)) (j : ℕ) : List ℕ :=
  (List.range scores.length).filter (fun i => decide (thresh < classScore scores j i))

/-- `np.hstack((boxes[inds], scores[inds, j-1][:, None]))`: the candidate
rows handed to NMS. -/
def evalSelect (boxes : List Box) (scores : List (List ℚ)) (j : ℕ)
    (is : List ℕ) : List (Box × ℚ) :=
  is.map (fun i => (boxes.getD i (0, 0, 0, 0), classScore scores j i))

/-- The per-class body of the evaluation loop: empty `(0, 5)` result when no
score exceeds the threshold, otherwise the NMS-kept subset of the selected
candidates (`nmsKeep` abstracts `c_dets[nms(c_dets, nms_thresh), :]`). -/
def perClassDets (nmsKeep : List (Box × ℚ) → List (Box × ℚ)) (thresh : ℚ)
    (boxes : List Box) (scores : List (List ℚ)) (j : ℕ) : List (Box × ℚ) :=
  let is := evalInds thresh scores j
  if is.isEmpty then [] else nmsKeep (evalSelect boxes scores j is)

/-- Claim C3: for each non-background class `j`, the candidates handed to NMS
are exactly the (box, class-`j` score) rows whose score strictly exceeds
`evalThresh = 0.005`, and when no score exceeds the threshold the per-image
class result is the empty array. -/
theorem C3_score_threshold (nmsKeep : List (Box × ℚ) → List (Box × ℚ))
    (boxes : List Box) (scores : List (List ℚ)) (j : ℕ)
    (hlen : boxes.length = scores.length) :
    evalSelect boxes scores j (evalInds evalThresh scores j)
      = (boxes.zip (scores.map (fun r => r.getD (j - 1) 0))).filter
          (fun p => decide (evalThresh < p.2)) ∧
    ((∀ i < scores.length, classScore scores j i ≤ evalThresh) →
      perClassDets nmsKeep evalThresh boxes scores j = []) := by
  constructor
  · have hmap : (List.range scores.length).map
          (fun i => (boxes.getD i (0, 0, 0, 0), classScore scores j i))
        = boxes.zip (scores.map (fun r => r.getD (j - 1) 0)) := by
      apply List.ext_getElem
      · simp [List.length_zip, hlen]
      · intro i h1 h2
        have hi : i < scores.length := by simpa using h1
        have hib : i < boxes.length := by omega
        have his : i < (scores.map (fun r => r.getD (j - 1) 0)).length := by
          simpa using hi
        rw [List.getElem_map, List.getElem_range, List.getElem_zip,
          List.getElem_map]
        refine Prod.ext ?_ ?_
        · show boxes.getD i (0, 0, 0, 0) = boxes[i]
          exact List.getD_eq_getElem boxes (0, 0, 0, 0) hib
        · show classScore scores j i = (scores[i]).getD (j - 1) 0
          unfold classScore
          rw [List.getD_eq_getElem scores [] hi]
    have hcomp :
        (fun i => decide (evalThresh < classScore scores j i))
          = (fun p : Box × ℚ => decide (evalThresh < p.2)) ∘
              (fun i => (boxes.getD i (0, 0, 0, 0), classScore scores j i)) := by
      funext i
      rfl
    show ((List.range scores.length).filter
        (fun i => decide (evalThresh < classScore scores j i))).map
          (fun i => (boxes.getD i (0, 0, 0, 0), classScore scores j i)) = _
    rw [hcomp, ← List.filter_map, hmap]
  · intro hnone
    have hempty : evalInds evalThresh scores j = [] := by
      apply List.filter_eq_nil_iff.mpr
      intro i hi
      have := hnone i (List.mem_range.mp hi)
      simpa using not_lt.mpr this
    simp [perClassDets, hempty]

/-- Concrete boxes for the C3 witness. -/
def boxesEx : List Box := [(0, 0, 1, 1), (0, 0, 2, 2), (0, 0, 3, 3)]

/-- Concrete score rows for the C3 witness: class-1 scores 0.001, 0.5, 0.005
and class-2 scores all 0. -/
def scoresEx : List (List ℚ) := [[1 / 1000, 0], [1 / 2, 0], [5 / 1000, 0]]

/-- Witness for C3 on concrete data: of the class-1 scores
(0.001, 0.5, 0.005) only the second strictly exceeds the threshold 0.005
(ties are dropped), so only index 1 reaches NMS; for class 2 (all scores 0)
the result is empty. -/
theorem C3_score_threshold_witness :
    boxesEx.length = scoresEx.length ∧
    evalSelect boxesEx scoresEx 1 (evalInds evalThresh scoresEx 1)
      = (boxesEx.zip (scoresEx.map (fun r => r.getD (1 - 1) 0))).filter
          (fun p => decide (evalThresh < p.2)) ∧
    evalInds evalThresh scoresEx 1 = [1] ∧
    perClassDets id evalThresh boxesEx scoresEx 2 = [] := by
  have hlen : boxesEx.length = scoresEx.length := rfl
  refine ⟨hlen, (C3_score_threshold id boxesEx scoresEx 1 hlen).1, ?_,
    (C3_score_threshold id boxesEx scoresEx 2 hlen).2 ?_⟩
  · rw [evalInds, show List.range scoresEx.length = [0, 1, 2] from rfl,
      List.filter_cons, List.filter_cons, List.filter_cons, List.filter_nil]
    simp only [show classScore scoresEx 1 0 = 1 / 1000 from rfl,
      show classScore scoresEx 1 1 = 1 / 2 from rfl,
      show classScore scoresEx 1 2 = 5 / 1000 from rfl, decide_eq_true_eq]
    rw [if_neg (by norm_num [evalThresh]), if_pos (by norm_num [evalThresh]),
      if_neg (by norm_num [evalThresh])]
  · intro i hi
    have h3 : i < 3 := hi
    interval_cases i
    · rw [show classScore scoresEx 2 0 = 0 from rfl]
      norm_num [evalThresh]
    · rw [show classScore scoresEx 2 1 = 0 from rfl]
      norm_num [evalThresh]
    · rw [show classScore scoresEx 2 2 = 0 from rfl]
      norm_num [evalThresh]

/-- The global top-K cap of `src/main.py` lines 220-226, per image: `dets` is
the per-class list (classes `1..num_classes-1` in order) of kept score
columns (`all_boxes[j][i][:, -1]`). When the total count exceeds
`max_per_image`, the `max_per_image`-th highest score overall becomes the
threshold and each class keeps exactly its rows with score `≥` threshold.
`np.sort` is ascending; over a linear order any ascending sort of the same
multiset is the same list, so `List.insertionSort` is extensionally
`np.sort`. -/
def topkCap (maxPer : ℕ) (dets : List (List ℚ)) : List (List ℚ) :=
  if 0 < maxPer then
    let image_scores := dets.flatten
    if maxPer < image_scores.length then
      let sorted := List.insertionSort (· ≤ ·) image_scores
      let image_thresh := sorted.getD (image_scores.length - maxPer) 0
      dets.map (fun cls => cls.filter (fun s => decide (image_thresh ≤ s)))
    else dets
  else dets

/-- The `max_per_image`-th highest score:
`np.sort(image_scores)[-max_per_image]`. -/
def capThresh (maxPer : ℕ) (dets : List (List ℚ)) : ℚ :=
  (List.insertionSort (· ≤ ·) dets.flatten).getD (dets.flatten.length - maxPer) 0

lemma countP_ge_of_sorted_suffix (L : List ℚ) (m : ℕ) (hm : m < L.length)
    (hs : List.Sorted (· ≤ ·) L) :
    L.length - m ≤ L.countP (fun s => decide (L.getD m 0 ≤ s)) := by
  have hsplit := List.countP_append (fun s => decide (L.getD m 0 ≤ s))
    (L.take m) (L.drop m)
  rw [List.take_append_drop] at hsplit
  have hall : ∀ a ∈ L.drop m, (fun s => decide (L.getD m 0 ≤ s)) a = true := by
    intro a ha
    obtain ⟨jj, hj, rfl⟩ := List.mem_iff_getElem.mp ha
    have h2 : m + jj < L.length := by
      rw [List.length_drop] at hj
      omega
    rw [List.getElem_drop]
    have hrel : L.getD m 0 ≤ L[m + jj] := by
      rw [List.getD_eq_getElem L 0 hm]
      have := hs.rel_get_of_le (a := ⟨m, hm⟩) (b := ⟨m + jj, h2⟩)
        (by simp [Fin.mk_le_mk])
      simpa using this
    simpa using hrel
  have hdrop : (L.drop m).countP (fun s => decide (L.getD m 0 ≤ s))
      = (L.drop m).length := List.countP_eq_length.mpr hall
  rw [hsplit, hdrop, List.length_drop]
  omega

/-- Claim C2 as amended: when the total kept detections exceed
`max_per_image = 300`, the cap keeps per class exactly the rows whose score
is `≥` the 300-th highest score overall; the resulting total length is the
number of scores `≥` that threshold, which is AT LEAST 300 (exactly 300 only
when no tie straddles the threshold); every kept score is `≥` the threshold
and kept scores keep their multiplicity. -/
theorem C2_topk_cap (dets : List (List ℚ)) (h : 300 < dets.flatten.length) :
    topkCap 300 dets
      = dets.map (fun cls => cls.filter
          (fun s => decide (capThresh 300 dets ≤ s))) ∧
    (topkCap 300 dets).flatten.length
      = dets.flatten.countP (fun s => decide (capThresh 300 dets ≤ s)) ∧
    300 ≤ (topkCap 300 dets).flatten.length ∧
    (∀ s ∈ (topkCap 300 dets).flatten, capThresh 300 dets ≤ s) ∧
    (∀ s : ℚ, capThresh 300 dets ≤ s →
      (topkCap 300 dets).flatten.count s = dets.flatten.count s) := by
  have hcap : topkCap 300 dets
      = dets.map (fun cls => cls.filter
          (fun s => decide (capThresh 300 dets ≤ s))) := by
    simp only [topkCap]
    rw [if_pos (show (0 : ℕ) < 300 by omega), if_pos h]
    rfl
  have hflat : (topkCap 300 dets).flatten
      = dets.flatten.filter (fun s => decide (capThresh 300 dets ≤ s)) := by
    rw [hcap, ← List.filter_flatten]
  have hlen : (topkCap 300 dets).flatten.length
      = dets.flatten.countP (fun s => decide (capThresh 300 dets ≤ s)) := by
    rw [hflat, ← List.countP_eq_length_filter]
  refine ⟨hcap, hlen, ?_, ?_, ?_⟩
  · rw [hlen]
    have hperm : (List.insertionSort (· ≤ ·) dets.flatten).Perm dets.flatten :=
      List.perm_insertionSort _ _
    have hLlen : (List.insertionSort (· ≤ ·) dets.flatten).length
        = dets.flatten.length := hperm.length_eq
    have hm : dets.flatten.length - 300
        < (List.insertionSort (· ≤ ·) dets.flatten).length := by omega
    have hsuffix := countP_ge_of_sorted_suffix
      (List.insertionSort (· ≤ ·) dets.flatten) (dets.flatten.length - 300) hm
      (List.sorted_insertionSort _ _)
    have hcnt := List.Perm.countP_eq
      (fun s => decide ((List.insertionSort (· ≤ ·) dets.flatten).getD
        (dets.flatten.length - 300) 0 ≤ s)) hperm
    rw [show capThresh 300 dets
        = (List.insertionSort (· ≤ ·) dets.flatten).getD
            (dets.flatten.length - 300) 0 from rfl]
    omega
  · intro s hsmem
    rw [hflat] at hsmem
    have := List.of_mem_filter hsmem
    simpa using this
  · intro s hts
    rw [hflat]
    exact List.count_filter (by simpa using hts)

lemma sorted_replicate_ones :
    List.insertionSort (· ≤ ·) (List.replicate 301 (1 : ℚ))
      = List.replicate 301 (1 : ℚ) :=
  List.Sorted.insertionSort_eq (List.pairwise_replicate.mpr (Or.inr le_rfl))

lemma flatten_ones_length :
    ([List.replicate 301 (1 : ℚ)] : List (List ℚ)).flatten.length = 301 := by
  rw [List.flatten_cons, List.flatten_nil, List.append_nil,
    List.length_replicate]

lemma getD_replicate_ones :
    (List.replicate 301 (1 : ℚ)).getD (301 - 300) 0 = 1 := by
  rw [List.getD_eq_getElem?_getD, List.getElem?_replicate,
    if_pos (show 301 - 300 < 301 by omega), Option.getD_some]

lemma capThresh_replicate_ones :
    capThresh 300 [List.replicate 301 (1 : ℚ)] = 1 := by
  simp only [capThresh, List.flatten_cons, List.flatten_nil, List.append_nil,
    List.length_replicate, sorted_replicate_ones]
  exact getD_replicate_ones

lemma topkCap_replicate_ones :
    (topkCap 300 [List.replicate 301 (1 : ℚ)]).flatten
      = List.replicate 301 (1 : ℚ) := by
  simp only [topkCap, List.flatten_cons, List.flatten_nil, List.append_nil,
    List.length_replicate]
  rw [if_pos (show (0 : ℕ) < 300 by omega),
    if_pos (show (300 : ℕ) < 301 by omega), sorted_replicate_ones,
    getD_replicate_ones, List.map_cons, List.map_nil, List.filter_replicate,
    if_pos (by norm_num), List.flatten_cons, List.flatten_nil,
    List.append_nil]

/-- Counterexample for claim C2 as stated: with one class holding 301
detections all scoring 1 (total 301 > 300), the 300-th highest score is 1 and
every row ties with it, so the capped output has 301 detections, not exactly
300. -/
theorem C2_topk_cap_counterexample :
    300 < ([List.replicate 301 (1 : ℚ)] : List (List ℚ)).flatten.length ∧
    (topkCap 300 [List.replicate 301 (1 : ℚ)]).flatten.length ≠ 300 := by
  refine ⟨by rw [flatten_ones_length]; omega, ?_⟩
  rw [topkCap_replicate_ones, List.length_replicate]
  omega

/-- Witness for the amended C2 at the tie example: the hypothesis holds, the
capped total is at least 300 (in fact 301), and the computed threshold is
the tied score 1. -/
theorem C2_topk_cap_witness :
    300 < ([List.replicate 301 (1 : ℚ)] : List (List ℚ)).flatten.length ∧
    300 ≤ (topkCap 300 [List.replicate 301 (1 : ℚ)]).flatten.length ∧
    capThresh 300 [List.replicate 301 (1 : ℚ)] = 1 :=
  ⟨by rw [flatten_ones_length]; omega,
   (C2_topk_cap [List.replicate 301 (1 : ℚ)]
      (by rw [flatten_ones_length]; omega)).2.2.1,
   capThresh_replicate_ones⟩

/-- Claim C9 (implicit tie behavior): when the total exceeds
`max_per_image = 300`, every detection of every class whose score is `≥` the
300-th highest score is kept (with its multiplicity), and every detection
scoring strictly below it is dropped — so ties at the threshold are all kept
and the output may exceed 300 (the witness exhibits an output of length
301). -/
theorem C9_topk_cap_ties (dets : List (List ℚ))
    (h : 300 < dets.flatten.length) :
    (∀ (j : ℕ) (s : ℚ), capThresh 300 dets ≤ s →
      ((topkCap 300 dets).getD j []).count s = (dets.getD j []).count s) ∧
    (∀ (j : ℕ) (s : ℚ), s < capThresh 300 dets →
      ((topkCap 300 dets).getD j []).count s = 0) := by
  have hcap : topkCap 300 dets
      = dets.map (fun cls => cls.filter
          (fun s => decide (capThresh 300 dets ≤ s))) := by
    simp only [topkCap]
    rw [if_pos (show (0 : ℕ) < 300 by omega), if_pos h]
    rfl
  have hgetD : ∀ j : ℕ, (topkCap 300 dets).getD j []
      = (dets.getD j []).filter (fun s => decide (capThresh 300 dets ≤ s)) := by
    intro j
    rw [hcap, List.getD_eq_getElem?_getD, List.getElem?_map,
      List.getD_eq_getElem?_getD]
    cases dets[j]? with
    | none => rfl
    | some cls => rfl
  constructor
  · intro j s hts
    rw [hgetD j]
    exact List.count_filter (by simpa using hts)
  · intro j s hts
    rw [hgetD j]
    apply List.count_eq_zero.mpr
    intro hmem
    have hp := List.of_mem_filter hmem
    have : capThresh 300 dets ≤ s := by simpa using hp
    exact absurd this (not_le.mpr hts)

/-- Witness for C9 at the tie example: all 301 detections tie at the
threshold score 1, all are kept with their multiplicity, and the per-image
output exceeds `max_per_image = 300`. -/
theorem C9_topk_cap_ties_witness :
    300 < ([List.replicate 301 (1 : ℚ)] : List (List ℚ)).flatten.length ∧
    ((topkCap 300 [List.replicate 301 (1 : ℚ)]).getD 0 []).count 1
      = (([List.replicate 301 (1 : ℚ)] : List (List ℚ)).getD 0 []).count 1 ∧
    300 < (topkCap 300 [List.replicate 301 (1 : ℚ)]).flatten.length := by
  refine ⟨by rw [flatten_ones_length]; omega, ?_, ?_⟩
  · exact (C9_topk_cap_ties [List.replicate 301 (1 : ℚ)]
        (by rw [flatten_ones_length]; omega)).1 0 1
      (le_of_eq capThresh_replicate_ones)
  · rw [topkCap_replicate_ones, List.length_replicate]
    omega

/-! ## `RepVGGBlock` (`src/models/repvgg_backbone.py`)

Channel indices are unbounded naturals; channel counts appear only as
summation ranges (entries outside an array's shape are 0 and are never
summed). Spatial coordinates are integers; `padding=1` zero-padding is the
zero extension `extZ` of the input outside `[0,H) × [0,W)`. A BatchNorm in
eval mode is the per-channel affine map
`y ↦ gamma * (y - running_mean) / sqrt(running_var + eps) + beta`; the
parameter `std` stands for the irrational `sqrt(running_var + eps)`. The
blocks used in this repository have `groups = 1`. -/

/-- A convolution kernel: out-channel, in-channel, row, column. -/
abbrev Kernel := ℕ → ℕ → ℕ → ℕ → ℚ

/-- A per-out-channel bias vector. -/
abbrev Bias := ℕ → ℚ

/-- A multi-channel image: channel, row, column. -/
abbrev Image := ℕ → ℤ → ℤ → ℚ

/-- BatchNorm parameters (eval mode, fixed statistics);
`std = sqrt(running_var + eps)`. -/
structure BNParams where
  gamma : ℕ → ℚ
  beta : ℕ → ℚ
  mean : ℕ → ℚ
  std : ℕ → ℚ

/-- Eval-mode BatchNorm on channel `c`. -/
def bnApply (b : BNParams) (c : ℕ) (y : ℚ) : ℚ :=
  b.gamma c * (y - b.mean c) / b.std c + b.beta c

/-- A `conv_bn` branch: bias-free convolution followed by BatchNorm. -/
structure ConvBN where
  kernel : Kernel
  bn : BNParams

/-- A training-form `RepVGGBlock` (`deploy=False`): 3×3 dense branch
(padding 1), 1×1 branch (padding `1 - 3 // 2 = 0`) and optional identity
BatchNorm branch. -/
structure RepVGGBlock where
  in_channels : ℕ
  out_channels : ℕ
  stride : ℕ
  rbr_dense : ConvBN
  rbr_1x1 : ConvBN
  rbr_identity : Option BNParams

/-- `RepVGGBlock.__init__` (non-deploy path, lines 32-35): the identity
branch exists exactly when `out_channels == in_channels and stride == 1`. -/
def mkRepVGGBlock (cin cout stride : ℕ) (dense one : ConvBN)
    (bn : BNParams) : RepVGGBlock :=
  ⟨cin, cout, stride, dense, one,
    if cout = cin ∧ stride = 1 then some bn else none⟩

/-- Zero extension of an image outside `[0,H) × [0,W)` (the effect of
zero-padding). -/
def extZ (H W : ℤ) (x : Image) (c : ℕ) (i j : ℤ) : ℚ :=
  if 0 ≤ i ∧ i < H ∧ 0 ≤ j ∧ j < W then x c i j else 0

/-- Bias-free 2-D convolution with a `k × k` kernel, stride `s` and symmetric
zero padding `pad`, on an `H × W` input with `cin` channels, evaluated at
output channel `co` and output position `(oi, oj)`. -/
def conv2d (cin k s : ℕ) (pad : ℤ) (K : Kernel) (H W : ℤ) (x : Image)
    (co : ℕ) (oi oj : ℤ) : ℚ :=
  ∑ ci ∈ Finset.range cin, ∑ di ∈ Finset.range k, ∑ dj ∈ Finset.range k,
    K co ci di dj
      * extZ H W x ci ((s : ℤ) * oi + (di : ℤ) - pad)
          ((s : ℤ) * oj + (dj : ℤ) - pad)

/-- The identity branch's contribution to `forward`: `0` when the branch is
absent, otherwise BatchNorm of the input (lines 42-45). -/
def idOut (idb : Option BNParams) (x : Image) (co : ℕ) (oi oj : ℤ) : ℚ :=
  match idb with
  | none => 0
  | some b => bnApply b co (x co oi oj)

/-- Training-mode pre-ReLU output:
`rbr_dense(x) + rbr_1x1(x) + id_out` (line 47). -/
def trainPre (B : RepVGGBlock) (H W : ℤ) (x : Image) (co : ℕ)
    (oi oj : ℤ) : ℚ :=
  bnApply B.rbr_dense.bn co
      (conv2d B.in_channels 3 B.stride 1 B.rbr_dense.kernel H W x co oi oj)
    + bnApply B.rbr_1x1.bn co
        (conv2d B.in_channels 1 B.stride 0 B.rbr_1x1.kernel H W x co oi oj)
    + idOut B.rbr_identity x co oi oj

/-- `max(·, 0)`, the ReLU nonlinearity. -/
def relu (q : ℚ) : ℚ := max q 0

/-- Training-mode forward (ReLU of the three-branch sum). -/
def trainForward (B : RepVGGBlock) (H W : ℤ) (x : Image) (co : ℕ)
    (oi oj : ℤ) : ℚ :=
  relu (trainPre B H W x co oi oj)

/-- `_fuse_bn` on a `nn.Sequential` conv+bn branch (lines 53-59, 70-74):
kernel scaled per out-channel by `gamma/std`, bias
`beta - running_mean * gamma / std`. -/
def fuseConvBN (cb : ConvBN) : Kernel × Bias :=
  (fun o i di dj => cb.kernel o i di dj * (cb.bn.gamma o / cb.bn.std o),
   fun o => cb.bn.beta o - cb.bn.mean o * cb.bn.gamma o / cb.bn.std o)

/-- The `np.zeros((in_channels, in_channels, 3, 3))` kernel with
`kernel[i, i, 1, 1] = 1` (lines 62-64). -/
def idKernel (cin : ℕ) : Kernel :=
  fun o i di dj => if o = i ∧ i < cin ∧ di = 1 ∧ dj = 1 then 1 else 0

/-- `_fuse_bn` on the identity `nn.BatchNorm2d` branch (lines 60-74). -/
def fuseBNId (cin : ℕ) (b : BNParams) : Kernel × Bias :=
  (fun o i di dj => idKernel cin o i di dj * (b.gamma o / b.std o),
   fun o => b.beta o - b.mean o * b.gamma o / b.std o)

/-- `_fuse_bn` on the optional identity branch: `(0, 0)` when the branch is
`None` (lines 51-52). -/
def fuseOptBN (cin : ℕ) : Option BNParams → Kernel × Bias
  | none => (fun _ _ _ _ => 0, fun _ => 0)
  | some b => fuseBNId cin b

/-- `_pad_1x1_to_3x3` (lines 76-81): place the 1×1 kernel at the center of a
3×3 kernel. -/
def pad1x1to3x3 (k1 : Kernel) : Kernel :=
  fun o i di dj => if di = 1 ∧ dj = 1 then k1 o i 0 0 else 0

/-- `repvgg_convert` (lines 83-87): fused 3×3 kernel
`kernel3x3 + pad(kernel1x1) + kernelid` and bias
`bias3x3 + bias1x1 + biasid`. -/
def repvgg_convert (B : RepVGGBlock) : Kernel × Bias :=
  (fun o i di dj =>
      (fuseConvBN B.rbr_dense).1 o i di dj
        + pad1x1to3x3 (fuseConvBN B.rbr_1x1).1 o i di dj
        + (fuseOptBN B.in_channels B.rbr_identity).1 o i di dj,
   fun o =>
      (fuseConvBN B.rbr_dense).2 o + (fuseConvBN B.rbr_1x1).2 o
        + (fuseOptBN B.in_channels B.rbr_identity).2 o)

/-- Deploy-mode pre-ReLU output: the single 3×3 convolution (stride and
padding of the dense branch) with the fused kernel, plus the fused bias
(lines 28-30, 39-40). -/
def deployPre (B : RepVGGBlock) (H W : ℤ) (x : Image) (co : ℕ)
    (oi oj : ℤ) : ℚ :=
  conv2d B.in_channels 3 B.stride 1 (repvgg_convert B).1 H W x co oi oj
    + (repvgg_convert B).2 co

/-- Deploy-mode forward (`relu(rbr_reparam(x))`). -/
def deployForward (B : RepVGGBlock) (H W : ℤ) (x : Image) (co : ℕ)
    (oi oj : ℤ) : ℚ :=
  relu (deployPre B H W x co oi oj)

/-- Claim C10: a training-mode `RepVGGBlock` has an identity branch iff
`out_channels = in_channels` and `stride = 1`; an absent branch contributes
`0` to the forward pass and fuses to the zero kernel and zero bias, so
forward and fusion are well-defined for stride-2 and channel-changing
blocks. -/
theorem C10_identity_branch (cin cout stride : ℕ) (dense one : ConvBN)
    (bn : BNParams) :
    ((mkRepVGGBlock cin cout stride dense one bn).rbr_identity.isSome
      ↔ (cout = cin ∧ stride = 1)) ∧
    (∀ (x : Image) (co : ℕ) (oi oj : ℤ),
      idOut (none : Option BNParams) x co oi oj = 0) ∧
    fuseOptBN cin (none : Option BNParams)
      = (fun _ _ _ _ => 0, fun _ => 0) := by
  refine ⟨?_, fun x co oi oj => rfl, rfl⟩
  by_cases hc : cout = cin ∧ stride = 1
  · simp [mkRepVGGBlock, hc]
  · simp [mkRepVGGBlock, hc]

lemma bn_linear (b : BNParams) (c : ℕ) (y : ℚ) :
    bnApply b c y
      = b.gamma c / b.std c * y
        + (b.beta c - b.mean c * b.gamma c / b.std c) := by
  unfold bnApply
  ring

lemma conv2d_add3 (cin k s : ℕ) (pad : ℤ) (K1 K2 K3 : Kernel) (H W : ℤ)
    (x : Image) (co : ℕ) (oi oj : ℤ) :
    conv2d cin k s pad
        (fun o i di dj => K1 o i di dj + K2 o i di dj + K3 o i di dj)
        H W x co oi oj
      = conv2d cin k s pad K1 H W x co oi oj
        + conv2d cin k s pad K2 H W x co oi oj
        + conv2d cin k s pad K3 H W x co oi oj := by
  unfold conv2d
  simp only [add_mul, Finset.sum_add_distrib]

lemma conv2d_smul (cin k s : ℕ) (pad : ℤ) (K : Kernel) (t : ℕ → ℚ)
    (H W : ℤ) (x : Image) (co : ℕ) (oi oj : ℤ) :
    conv2d cin k s pad (fun o i di dj => K o i di dj * t o) H W x co oi oj
      = t co * conv2d cin k s pad K H W x co oi oj := by
  unfold conv2d
  rw [Finset.mul_sum]
  refine Finset.sum_congr rfl fun ci _ => ?_
  rw [Finset.mul_sum]
  refine Finset.sum_congr rfl fun di _ => ?_
  rw [Finset.mul_sum]
  refine Finset.sum_congr rfl fun dj _ => ?_
  ring

lemma conv2d_zero (cin k s : ℕ) (pad : ℤ) (H W : ℤ) (x : Image) (co : ℕ)
    (oi oj : ℤ) :
    conv2d cin k s pad (fun _ _ _ _ => 0) H W x co oi oj = 0 := by
  simp [conv2d]

lemma conv2d_pad1x1 (cin s : ℕ) (K : Kernel) (H W : ℤ) (x : Image) (co : ℕ)
    (oi oj : ℤ) :
    conv2d cin 3 s 1 (pad1x1to3x3 K) H W x co oi oj
      = conv2d cin 1 s 0 K H W x co oi oj := by
  unfold conv2d pad1x1to3x3
  refine Finset.sum_congr rfl fun ci _ => ?_
  simp [Finset.sum_range_succ]

lemma conv2d_id (cin s : ℕ) (b : BNParams) (H W : ℤ) (x : Image) (co : ℕ)
    (oi oj : ℤ) (hco : co < cin) :
    conv2d cin 3 s 1 (fuseBNId cin b).1 H W x co oi oj
      = b.gamma co / b.std co
          * extZ H W x co ((s : ℤ) * oi) ((s : ℤ) * oj) := by
  unfold conv2d fuseBNId idKernel
  have key : ∀ ci ∈ Finset.range cin,
      (∑ di ∈ Finset.range 3, ∑ dj ∈ Finset.range 3,
        (if co = ci ∧ ci < cin ∧ di = 1 ∧ dj = 1 then (1 : ℚ) else 0)
          * (b.gamma co / b.std co)
          * extZ H W x ci ((s : ℤ) * oi + (di : ℤ) - 1)
              ((s : ℤ) * oj + (dj : ℤ) - 1))
        = if co = ci then
            b.gamma co / b.std co
              * extZ H W x ci ((s : ℤ) * oi) ((s : ℤ) * oj)
          else 0 := by
    intro ci hci
    have hci1 : ci < cin := Finset.mem_range.mp hci
    by_cases hcc : co = ci
    · subst hcc
      rw [if_pos rfl]
      simp [Finset.sum_range_succ, hci1]
    · rw [if_neg hcc]
      simp [Finset.sum_range_succ, hcc]
  rw [Finset.sum_congr rfl key, Finset.sum_ite_eq (Finset.range cin) co,
    if_pos (Finset.mem_range.mpr hco)]

lemma extZ_of_mem (H W : ℤ) (x : Image) (c : ℕ) (i j : ℤ)
    (h1 : 0 ≤ i) (h2 : i < H) (h3 : 0 ≤ j) (h4 : j < W) :
    extZ H W x c i j = x c i j :=
  if_pos ⟨h1, h2, h3, h4⟩

lemma deployPre_eq (B : RepVGGBlock) (H W : ℤ) (x : Image) (co : ℕ)
    (oi oj : ℤ) :
    deployPre B H W x co oi oj
      = B.rbr_dense.bn.gamma co / B.rbr_dense.bn.std co
          * conv2d B.in_channels 3 B.stride 1 B.rbr_dense.kernel H W x co oi oj
        + (B.rbr_dense.bn.beta co
            - B.rbr_dense.bn.mean co * B.rbr_dense.bn.gamma co
                / B.rbr_dense.bn.std co)
        + (B.rbr_1x1.bn.gamma co / B.rbr_1x1.bn.std co
            * conv2d B.in_channels 1 B.stride 0 B.rbr_1x1.kernel H W x co oi oj
          + (B.rbr_1x1.bn.beta co
              - B.rbr_1x1.bn.mean co * B.rbr_1x1.bn.gamma co
                  / B.rbr_1x1.bn.std co))
        + (conv2d B.in_channels 3 B.stride 1
            (fuseOptBN B.in_channels B.rbr_identity).1 H W x co oi oj
          + (fuseOptBN B.in_channels B.rbr_identity).2 co) := by
  unfold deployPre
  rw [show (repvgg_convert B).1 = (fun o i di dj =>
        (fuseConvBN B.rbr_dense).1 o i di dj
          + pad1x1to3x3 (fuseConvBN B.rbr_1x1).1 o i di dj
          + (fuseOptBN B.in_channels B.rbr_identity).1 o i di dj) from rfl,
    conv2d_add3, conv2d_pad1x1,
    show (fuseConvBN B.rbr_dense).1 = (fun o i di dj =>
        B.rbr_dense.kernel o i di dj
          * (B.rbr_dense.bn.gamma o / B.rbr_dense.bn.std o)) from rfl,
    show (fuseConvBN B.rbr_1x1).1 = (fun o i di dj =>
        B.rbr_1x1.kernel o i di dj
          * (B.rbr_1x1.bn.gamma o / B.rbr_1x1.bn.std o)) from rfl,
    conv2d_smul, conv2d_smul,
    show (repvgg_convert B).2 co
        = (B.rbr_dense.bn.beta co
            - B.rbr_dense.bn.mean co * B.rbr_dense.bn.gamma co
                / B.rbr_dense.bn.std co)
          + (B.rbr_1x1.bn.beta co
              - B.rbr_1x1.bn.mean co * B.rbr_1x1.bn.gamma co
                  / B.rbr_1x1.bn.std co)
          + (fuseOptBN B.in_channels B.rbr_identity).2 co from rfl]
  ring

/-- Claim C1: RepVGG reparameterization is behavior-preserving. For every
training-form block whose identity branch (when present) satisfies the
constructor invariant `stride = 1 ∧ out_channels = in_channels`, every input
and every output channel `co` and valid output position, the single 3×3
convolution with the kernel/bias pair returned by `repvgg_convert` computes
the same pre-ReLU value as `rbr_dense(x) + rbr_1x1(x) + rbr_identity(x)`,
hence the deploy-mode forward (ReLU of it) equals the training-mode
forward. -/
theorem C1_repvgg_reparam (B : RepVGGBlock) (H W : ℤ) (x : Image) (co : ℕ)
    (oi oj : ℤ)
    (hid : ∀ b, B.rbr_identity = some b →
      B.stride = 1 ∧ B.out_channels = B.in_channels)
    (hco : co < B.out_channels)
    (hoi : 0 ≤ oi ∧ oi < H) (hoj : 0 ≤ oj ∧ oj < W) :
    trainPre B H W x co oi oj = deployPre B H W x co oi oj ∧
    trainForward B H W x co oi oj = deployForward B H W x co oi oj := by
  obtain ⟨hoi1, hoi2⟩ := hoi
  obtain ⟨hoj1, hoj2⟩ := hoj
  have hpre : trainPre B H W x co oi oj = deployPre B H W x co oi oj := by
    rw [deployPre_eq]
    unfold trainPre
    cases hb : B.rbr_identity with
    | none =>
        simp only [idOut, fuseOptBN]
        rw [conv2d_zero]
        simp only [bn_linear]
        ring
    | some b =>
        obtain ⟨hs1, hcc⟩ := hid b hb
        have hco1 : co < B.in_channels := hcc ▸ hco
        simp only [idOut, fuseOptBN]
        rw [conv2d_id B.in_channels B.stride b H W x co oi oj hco1]
        rw [hs1]
        rw [Nat.cast_one, one_mul, one_mul,
          extZ_of_mem H W x co oi oj hoi1 hoi2 hoj1 hoj2]
        simp only [bn_linear]
        show _ = _ + _ + (b.gamma co / b.std co * x co oi oj
          + (b.beta co - b.mean co * b.gamma co / b.std co))
        ring
  exact ⟨hpre, by unfold trainForward deployForward; rw [hpre]⟩

/-- BatchNorm parameters acting as the identity-with-unit-variance map. -/
def exBN : BNParams := ⟨fun _ => 1, fun _ => 0, fun _ => 0, fun _ => 1⟩

/-- Dense 3×3 branch for the C1 witness: all-ones kernel. -/
def exDense : ConvBN := ⟨fun _ _ _ _ => 1, exBN⟩

/-- 1×1 branch for the C1 witness: constant kernel 2. -/
def exOne : ConvBN := ⟨fun _ _ _ _ => 2, exBN⟩

/-- A concrete 1-channel, stride-1 block (identity branch present). -/
def exBlock : RepVGGBlock := mkRepVGGBlock 1 1 1 exDense exOne exBN

/-- The all-ones 1×1 image. -/
def exImg : Image := fun _ _ _ => 1

/-- Witness for C1: on the concrete block and the all-ones 1×1 input, the
training and deploy pre-ReLU outputs agree, and their common value is
`1 + 2 + 1 = 4` (dense, 1×1 and identity contributions). -/
theorem C1_repvgg_reparam_witness :
    (∀ b, exBlock.rbr_identity = some b →
      exBlock.stride = 1 ∧ exBlock.out_channels = exBlock.in_channels) ∧
    0 < exBlock.out_channels ∧
    ((0 : ℤ) ≤ 0 ∧ (0 : ℤ) < 1) ∧
    trainPre exBlock 1 1 exImg 0 0 0 = deployPre exBlock 1 1 exImg 0 0 0 ∧
    trainPre exBlock 1 1 exImg 0 0 0 = 4 := by
  refine ⟨fun b hb => ⟨rfl, rfl⟩, by decide, ⟨by decide, by decide⟩, ?_, ?_⟩
  · exact (C1_repvgg_reparam exBlock 1 1 exImg 0 0 0
      (fun b hb => ⟨rfl, rfl⟩) (by decide)
      ⟨by decide, by decide⟩ ⟨by decide, by decide⟩).1
  · show bnApply _ _ _ + bnApply _ _ _ + idOut _ _ _ _ _ = 4
    simp only [exBlock, mkRepVGGBlock, exDense, exOne, exImg, conv2d, extZ,
      Finset.sum_range_succ, Finset.sum_range_zero]
    norm_num [idOut, bnApply, exBN, exImg]

end MutualGuide
